import Mathlib

/-
Verification development for the RehabMotionEvalSystem browser client.

The embedding below translates the realtime session / connection layer of the
repository into Lean:
  - `WebSocketClient` (src/unnamed/part_001, lines 6-218),
  - `ActionSelector` (src/unnamed/part_001, lines 227-460),
  - `RehabEvaluationApp` (src/frontend/scripts/main.js).

Modelling conventions:
  - JavaScript objects parsed from wire JSON are modelled by the `Json` type;
    `JSON.parse` failure is modelled by passing `none : Option Json` into the
    message handler (the source wraps the parse in try/catch).
  - A JavaScript computation that can throw is modelled by `JsOutcome` (for the
    transport send) or by an `Option String` error component (for callbacks).
  - Observable actions (console logging, alert dialogs, socket transmission,
    canvas drawing, REST calls) are recorded as a `List Effect`.
  - DOM text content that the claims mention (the statistics display and the
    current-action label) is carried in the state; other DOM manipulation
    (button disabling, option lists) has no claim-relevant behaviour and is
    not modelled.
-/

namespace Rehab

/-- An exercise ("action") record from the backend catalog: id, display name,
angle thresholds and tracked keypoints (wire fields id, name, up_angle,
down_angle, kpts). Only `id` and `name` are read by the modelled layer; the
other fields are carried opaquely. -/
structure Action where
  id : String
  name : String
  upAngle : Rat
  downAngle : Rat
  kpts : List Nat
  deriving DecidableEq

/-- Browser WebSocket readyState values. -/
inductive ReadyState
  | Connecting
  | Open
  | Closing
  | Closed
  deriving DecidableEq

/-- A JSON value as relevant to this protocol. General arrays are not needed:
the only array-valued field the modelled layer reads is `actions`, which is
represented structurally as `acts` (a well-formed list of exercise objects). -/
inductive Json
  | str (s : String)
  | num (q : Rat)
  | bool (b : Bool)
  | null
  | obj (fields : List (String × Json))
  | acts (l : List Action)

/-- Field lookup in a list of JSON object fields (first match, as produced by
`JSON.parse` on objects without duplicate keys). -/
def findField : List (String × Json) → String → Option Json
  | [], _ => none
  | (k, v) :: rest, key => if k = key then some v else findField rest key

/-- Property access `obj.field` on a parsed JSON value: `none` models the
JavaScript `undefined` result for missing fields or non-object receivers. -/
def Json.getField : Json → String → Option Json
  | .obj fs, k => findField fs k
  | _, _ => none

/-- JavaScript truthiness of a parsed JSON value (used by `if (result.data)`). -/
def jsTruthy : Json → Bool
  | .str s => !s.isEmpty
  | .num q => q != 0
  | .bool b => b
  | .null => false
  | .obj _ => true
  | .acts _ => true

/-- Decimal display of a rational; JavaScript float-to-string formatting is
abstracted (no claim depends on the rendering of a non-integral number). -/
def ratDisplay (q : Rat) : String :=
  if q.den = 1 then toString q.num else toString q.num ++ "/" ++ toString q.den

/-- String coercion performed by a DOM `textContent` assignment
(`countElement.textContent = stats.count`); `null` becomes the empty string. -/
def jsDisplay : Json → String
  | .str s => s
  | .num q => ratDisplay q
  | .bool b => cond b "true" "false"
  | .null => ""
  | .obj _ => "[object Object]"
  | .acts _ => ""

/-- JavaScript `number.toFixed(1)` on the model's rational numbers. -/
def fmtFixed1 (q : Rat) : String :=
  let t : Int := (q * 10 + 1 / 2).floor
  toString (t / 10) ++ "." ++ toString (t % 10)

/-- Observable actions performed by the modelled code. `sendCall` records an
invocation of `WebSocketClient.send` together with its boolean result; the
serialized text is transmitted on the socket exactly when the result is true. -/
inductive Effect
  | log (s : String)
  | alert (s : String)
  | sendCall (j : Json) (accepted : Bool)
  | forwardFrame (j : Json)
  | forwardStats (count stage angle : Option Json)
  | drawFrame (src : String)
  | resetVisualizer
  | restGet

/-- Outcome of a JavaScript expression that may throw. -/
inductive JsOutcome (α : Type)
  | ok (val : α)
  | thrown

/-- The outbound command vocabulary built by the `WebSocketClient` wrapper
methods (src/unnamed/part_001, lines 84-161). -/
inductive OutboundCommand
  | video (data : String) (selectedActionId : Option String)
  | startEvaluation (actionId : String)
  | stopEvaluation
  | actionSelect (actionId : String)
  | actionStop
  | getActions
  | settingsChange (settings : Json)

/-- The JSON object each wrapper method passes to `send`. -/
def encodeCommand : OutboundCommand → Json
  | .video d sel =>
      .obj ([("type", .str "video"), ("data", .str d)] ++
        (match sel with
         | some s => [("selected_action_id", .str s)]
         | none => []))
  | .startEvaluation aid => .obj [("type", .str "start_evaluation"), ("action_id", .str aid)]
  | .stopEvaluation => .obj [("type", .str "stop_evaluation")]
  | .actionSelect aid => .obj [("type", .str "action_select"), ("action_id", .str aid)]
  | .actionStop => .obj [("type", .str "action_stop")]
  | .getActions => .obj [("type", .str "get_actions")]
  | .settingsChange s => .obj [("type", .str "settings_change"), ("settings", s)]

/-- State owned by `WebSocketClient`: the `connected` flag it maintains in its
`onopen`/`onclose` handlers, and the underlying socket (`none` models
`this.socket === null`; otherwise the socket's readyState). -/
structure WSClientState where
  connected : Bool
  socket : Option ReadyState
  deriving DecidableEq

/-- `WebSocketClient.isConnected()` (src/unnamed/part_001, line 216):
`this.socket && this.socket.readyState === WebSocket.OPEN`. -/
def isConnected (c : WSClientState) : Bool :=
  match c.socket with
  | some rs => rs = ReadyState.Open
  | none => false

/-- Error message logged by `send` when the check fails. -/
def sendFailLog : String := "WebSocket未连接，无法发送消息"

/-- `WebSocketClient.send` (src/unnamed/part_001, lines 69-77). The guard is
`this.connected && this.socket.readyState === WebSocket.OPEN`; when `connected`
is true but the socket is null the readyState access throws a TypeError, which
is modelled by `JsOutcome.thrown`. -/
def wsSend (c : WSClientState) (j : Json) : JsOutcome (Bool × List Effect) :=
  if c.connected then
    match c.socket with
    | none => .thrown
    | some rs =>
        if rs = ReadyState.Open then .ok (true, [.sendCall j true])
        else .ok (false, [.log sendFailLog, .sendCall j false])
  else .ok (false, [.log sendFailLog, .sendCall j false])

/-- Socket lifecycle events observable by the client: constructor call inside
`connect()`, the platform `onopen`/`onclose`/`onerror` callbacks, and an
explicit `disconnect()` call. -/
inductive WSEvent
  | construct
  | onOpen
  | onClose
  | onError
  | disconnectCall

/-- Client state at construction: `connected = false`, `socket = null`. -/
def wsInit : WSClientState := { connected := false, socket := none }

/-- Effect of one lifecycle event on the client state, per the handlers
installed in `connect()` (src/unnamed/part_001, lines 22-54) and
`disconnect()` (lines 59-63). The platform sets the readyState before firing
the corresponding callback; `onerror` does not touch `connected`. -/
def wsStep (c : WSClientState) : WSEvent → WSClientState
  | .construct => { c with socket := some ReadyState.Connecting }
  | .onOpen =>
      match c.socket with
      | none => c
      | some _ => { connected := true, socket := some ReadyState.Open }
  | .onClose =>
      match c.socket with
      | none => c
      | some _ => { connected := false, socket := some ReadyState.Closed }
  | .onError => c
  | .disconnectCall =>
      match c.socket with
      | none => c
      | some rs =>
          if rs = ReadyState.Connecting ∨ rs = ReadyState.Open then
            { c with socket := some ReadyState.Closing }
          else c

/-- The client state reached after a sequence of lifecycle events. -/
def wsRun (evs : List WSEvent) : WSClientState :=
  evs.foldl wsStep wsInit

/-- Well-formedness of a client state: an open socket implies the `connected`
flag, and the `connected` flag implies the socket exists. -/
def WsGood (c : WSClientState) : Prop :=
  (c.socket = some ReadyState.Open → c.connected = true) ∧
  (c.connected = true → c.socket ≠ none)

/-- Decidable form of the half of `WsGood` that rules out a throwing `send`. -/
def wsWellFormed (c : WSClientState) : Bool :=
  !c.connected || c.socket.isSome

theorem wsGood_init : WsGood wsInit := by
  constructor <;> intro h <;> simp [wsInit] at h

theorem wsGood_step (c : WSClientState) (e : WSEvent) (h : WsGood c) :
    WsGood (wsStep c e) := by
  obtain ⟨h1, h2⟩ := h
  cases e <;> simp only [wsStep]
  case construct =>
    constructor
    · intro hsock
      simp at hsock
    · intro _
      simp
  case onOpen =>
    cases hs : c.socket with
    | none => exact ⟨h1, h2⟩
    | some rs =>
      constructor
      · intro _; rfl
      · intro _; simp
  case onClose =>
    cases hs : c.socket with
    | none => exact ⟨h1, h2⟩
    | some rs =>
      constructor
      · intro hsock
        simp at hsock
      · intro hco
        simp at hco
  case onError => exact ⟨h1, h2⟩
  case disconnectCall =>
    cases hs : c.socket with
    | none => exact ⟨h1, h2⟩
    | some rs =>
      by_cases hrs : rs = ReadyState.Connecting ∨ rs = ReadyState.Open
      · simp only [hrs, if_true]
        constructor
        · intro hsock
          simp at hsock
        · intro _
          simp
      · simp only [hrs, if_false]
        exact ⟨h1, h2⟩

theorem wsGood_foldl (evs : List WSEvent) :
    ∀ c : WSClientState, WsGood c → WsGood (evs.foldl wsStep c) := by
  induction evs with
  | nil => intro c h; simpa using h
  | cons e rest ih =>
    intro c h
    simpa using ih (wsStep c e) (wsGood_step c e h)

theorem wsGood_run (evs : List WSEvent) : WsGood (wsRun evs) :=
  wsGood_foldl evs wsInit wsGood_init

/-- The `textContent` of the four statistics display elements managed by
`ActionSelector` (count, stage, stage colour style, angle). -/
structure StatsDisplay where
  count : String
  stage : String
  stageCol : String
  angle : String
  deriving DecidableEq

/-- `ActionSelector.resetStats` (src/unnamed/part_001, lines 375-380). -/
def statsReset : StatsDisplay :=
  { count := "0", stage := "-", stageCol := "#2196F3", angle := "0.0°" }

/-- Stage colour chosen by `updateStats`. -/
def colorForStage (t : String) : String :=
  if t = "up" then "#4CAF50" else if t = "down" then "#2196F3" else "#FFC107"

/-- `ActionSelector.updateStats` (src/unnamed/part_001, lines 350-370). Each
field is applied only when present (`!== undefined`); `stage.toUpperCase()` on
a non-string and `angle.toFixed(1)` on a non-number throw a TypeError, modelled
by the `Option String` error component; updates made before the throw persist
(the DOM was already mutated). -/
def updateStats (d : StatsDisplay) (c s a : Option Json) :
    StatsDisplay × Option String :=
  let d1 := match c with
    | some cv => { d with count := jsDisplay cv }
    | none => d
  match s with
  | some (Json.str t) =>
      let d2 := { d1 with stage := t.toUpper, stageCol := colorForStage t }
      (match a with
       | some (Json.num q) => ({ d2 with angle := fmtFixed1 q ++ "°" }, none)
       | some _ => (d2, some "TypeError")
       | none => (d2, none))
  | some _ => (d1, some "TypeError")
  | none =>
      match a with
      | some (Json.num q) => ({ d1 with angle := fmtFixed1 q ++ "°" }, none)
      | some _ => (d1, some "TypeError")
      | none => (d1, none)

/-- One registered listener: invoking it yields the effects it performed and,
when it threw, the error it threw. -/
structure JsCallback (α : Type) where
  run : α → List Effect × Option String

/-- `Array.prototype.forEach` semantics: an uncaught exception thrown by the
body aborts the iteration and propagates to the caller. -/
def forEachJs (f : β → List Effect × Option String) :
    List β → List Effect × Option String
  | [] => ([], none)
  | b :: rest =>
      match f b with
      | (effs, some e) => (effs, some e)
      | (effs, none) =>
          let r := forEachJs f rest
          (effs ++ r.1, r.2)

/-- Log emitted by the dispatcher's catch block. -/
def callbackErrLog : String := "执行回调时出错"

/-- The loop body of `WebSocketClient._notifyCallbacks` (src/unnamed/part_001,
lines 191-201) and of the identical `ActionSelector._notifyCallbacks` (lines
406-416): invoke one callback inside try/catch, logging a thrown error. -/
def notifyBody (data : α) (cb : JsCallback α) : List Effect × Option String :=
  match cb.run data with
  | (effs, some _e) => (effs ++ [.log callbackErrLog], none)
  | (effs, none) => (effs, none)

/-- `_notifyCallbacks`: forEach over the registered callbacks with the
try/catch body. Shared verbatim by `WebSocketClient` and `ActionSelector`. -/
def notifyCallbacksJs (cbs : List (JsCallback α)) (data : α) :
    List Effect × Option String :=
  forEachJs (notifyBody data) cbs

/-- Combined client-side application state: the transport state, the
`ActionSelector` catalog/selection, the app's `isEvaluating` flag, and the
claim-relevant DOM text. -/
structure AppState where
  ws : WSClientState
  actions : List Action
  selectedAction : Option Action
  isEvaluating : Bool
  stats : StatsDisplay
  currentActionText : String
  deriving DecidableEq

def actionChangeLog : String := "动作选择变化"

def sentSelectLog : String := "动作选择已发送到后端"

def noneSelectedText : String := "未选择"

/-- The `onActionChange` listener registered by
`RehabEvaluationApp.initActionSelector` (src/frontend/scripts/main.js, lines
133-140): log, then if the client reports connected and an action is selected,
send an `action_select` command. A throwing `send` (possible only on an
ill-formed client state) surfaces as the callback throwing. -/
def mainOnActionChange (ws : WSClientState) : JsCallback (Option Action) :=
  ⟨fun a =>
    match a with
    | some act =>
        if isConnected ws then
          match wsSend ws (encodeCommand (OutboundCommand.actionSelect act.id)) with
          | .ok (_b, effs) => (Effect.log actionChangeLog :: effs ++ [.log sentSelectLog], none)
          | .thrown => ([Effect.log actionChangeLog], some "TypeError")
        else ([Effect.log actionChangeLog], none)
    | none => ([Effect.log actionChangeLog], none)⟩

/-- `ActionSelector._notifyCallbacks("onActionChange", a)` with the single
listener the app registers. -/
def appNotifyActionChange (ws : WSClientState) (a : Option Action) : List Effect :=
  (notifyCallbacksJs [mainOnActionChange ws] a).1

def updateActionsLog : String := "更新动作列表"

/-- `ActionSelector.updateActions` (src/unnamed/part_001, lines 422-450),
composed with the registered listener: replace the catalog; when an action was
selected, either refresh it in place from the new catalog (notifying the
listener) or, when its id is gone, clear the selection (notifying with null).
The dropdown rebuild in `_populateActionSelect` has no claim-relevant state. -/
def appUpdateActions (st : AppState) (l : List Action) : AppState × List Effect :=
  let st1 := { st with actions := l }
  match st.selectedAction with
  | none => (st1, [Effect.log updateActionsLog])
  | some sel =>
      match l.find? (fun a => a.id == sel.id) with
      | some updated =>
          ({ st1 with selectedAction := some updated, currentActionText := updated.name },
            Effect.log updateActionsLog :: appNotifyActionChange st.ws (some updated))
      | none =>
          ({ st1 with selectedAction := none, currentActionText := noneSelectedText },
            Effect.log updateActionsLog :: appNotifyActionChange st.ws none)

/-- `ActionSelector._handleActionChange` (src/unnamed/part_001, lines 329-344),
composed with the registered listener. An empty id (the "please select" option)
clears the selection and notifies with null; a non-empty id is looked up in the
catalog: on a hit the selection and label are set and the listener notified, on
a miss `find` returns undefined so the selection is silently cleared. All
branches end by resetting the statistics display. -/
def appSelectExercise (st : AppState) (actionId : String) : AppState × List Effect :=
  if actionId = "" then
    ({ st with
        selectedAction := none
        currentActionText := noneSelectedText
        stats := statsReset },
      appNotifyActionChange st.ws none)
  else
    match st.actions.find? (fun a => a.id == actionId) with
    | some act =>
        ({ st with
            selectedAction := some act
            currentActionText := act.name
            stats := statsReset },
          appNotifyActionChange st.ws (some act))
    | none =>
        ({ st with selectedAction := none, stats := statsReset }, [])

def selectFirstAlert : String := "请先选择要评估的动作"

def notConnectedAlert : String := "WebSocket连接未建立，请检查后端服务是否正常运行"

def startFlowLog : String := "开始评估流程"

def startSentLog : String := "发送开始评估请求结果"

def startEvalLog : String := "开始评估"

def startFailAlert : String := "开始评估失败，请重试"

def startFailLog : String := "开始评估失败"

/-- `RehabEvaluationApp.startEvaluation` (src/frontend/scripts/main.js, lines
383-423): reject with an alert when no action is selected or the client is not
connected; otherwise set `isEvaluating`, send `start_evaluation`, and on a
thrown send (ill-formed client state only) fall into the catch, which clears
`isEvaluating` and alerts. -/
def appStartEvaluation (st : AppState) : AppState × List Effect :=
  match st.selectedAction with
  | none => (st, [Effect.alert selectFirstAlert])
  | some sel =>
      if isConnected st.ws then
        let st1 := { st with isEvaluating := true }
        match wsSend st.ws (encodeCommand (OutboundCommand.startEvaluation sel.id)) with
        | .ok (_b, effs) =>
            (st1, Effect.log startFlowLog :: effs ++
              [Effect.log startSentLog, Effect.log startEvalLog])
        | .thrown =>
            ({ st with isEvaluating := false },
              [Effect.log startFailLog, Effect.alert startFailAlert])
      else (st, [Effect.alert notConnectedAlert])

def stopDoneLog : String := "停止评估，已重置状态"

def stopFailAlert : String := "停止评估失败，请重试"

def stopFailLog : String := "停止评估失败"

/-- `RehabEvaluationApp.stopEvaluation` (src/frontend/scripts/main.js, lines
428-456): clear `isEvaluating`, send `stop_evaluation`, reset the visualizer
and the statistics display. A thrown send (ill-formed client state only) jumps
to the catch before the resets. -/
def appStopEvaluation (st : AppState) : AppState × List Effect :=
  let st1 := { st with isEvaluating := false }
  match wsSend st.ws (encodeCommand OutboundCommand.stopEvaluation) with
  | .ok (_b, effs) =>
      ({ st1 with stats := statsReset },
        effs ++ [Effect.resetVisualizer, Effect.log stopDoneLog])
  | .thrown => (st1, [Effect.log stopFailLog, Effect.alert stopFailAlert])

def wsClosedLog : String := "WebSocket连接已关闭"

def wsErrorLog : String := "WebSocket错误"

/-- The socket `onclose` path: the client sets `connected = false` (the
platform has set readyState to Closed) and logs, then notifies the `onClose`
listener registered by `initWebSocket` (src/frontend/scripts/main.js, lines
184-186), which only logs. -/
def appOnClose (st : AppState) : AppState × List Effect :=
  ({ st with ws := {
        connected := false
        socket := st.ws.socket.map (fun _ => ReadyState.Closed) } },
    [Effect.log wsClosedLog, Effect.log wsClosedLog])

/-- The socket `onerror` path: the client logs and notifies the `onError`
listener registered by `initWebSocket` (src/frontend/scripts/main.js, lines
189-191), which only logs; no state is touched. -/
def appOnError (st : AppState) : AppState × List Effect :=
  (st, [Effect.log wsErrorLog, Effect.log wsErrorLog])

/-- `RehabEvaluationApp.handleProcessedFrame` (src/frontend/scripts/main.js,
lines 327-351): when the `data` field is truthy, load it into the canvas via
an image element with a base64 data URL. -/
def handleProcessedFrame (msg : Json) : List Effect :=
  match msg.getField "data" with
  | some d =>
      if jsTruthy d then [Effect.drawFrame ("data:image/jpeg;base64," ++ jsDisplay d)]
      else []
  | none => []

/-- The string the `switch (message.type)` dispatch sees: the `type` field when
it is a string, otherwise a value matching no case (represented by the empty
string, which also matches no case of the source switch). -/
def typeFieldString (msg : Json) : String :=
  match msg.getField "type" with
  | some (Json.str s) => s
  | _ => ""

/-- The closed set of inbound message kinds the dispatch distinguishes. -/
inductive MsgKind
  | processedFrame
  | result
  | warning
  | backendError
  | actionsList
  | actionSelected
  | actionStopped
  | evaluationStarted
  | unknown
  deriving DecidableEq

/-- Classification of a raw inbound frame (`none` = `JSON.parse` threw):
parse failure and a missing, non-string or unrecognized `type` field all land
in `unknown`, the cases the dispatch only logs and ignores. -/
def classifyMessage (raw : Option Json) : MsgKind :=
  match raw with
  | none => .unknown
  | some msg =>
      if typeFieldString msg = "processed_frame" then .processedFrame
      else if typeFieldString msg = "result" then .result
      else if typeFieldString msg = "warning" then .warning
      else if typeFieldString msg = "error" then .backendError
      else if typeFieldString msg = "actions_list" then .actionsList
      else if typeFieldString msg = "action_selected" then .actionSelected
      else if typeFieldString msg = "action_stopped" then .actionStopped
      else if typeFieldString msg = "evaluation_started" then .evaluationStarted
      else .unknown

def recvLog : String := "收到WebSocket消息"

def parseErrLog : String := "解析WebSocket消息出错"

def resultLog : String := "收到评估结果"

def warnLog : String := "后端警告"

def backendErrLog : String := "后端错误"

def actionsListLog : String := "收到动作列表"

def actionSelectedLog : String := "动作选择成功"

def actionStoppedLog : String := "动作评估已停止"

def evalStartedLog : String := "评估已开始"

def unknownTypeLog : String := "未知消息类型"

/-- `RehabEvaluationApp.handleWebSocketMessage` (src/frontend/scripts/main.js,
lines 265-321). `raw = none` models `JSON.parse` throwing, which the outer
catch turns into an error log. Frames and results are handled only while
`isEvaluating`; `forwardFrame`/`forwardStats` record the hand-off of the
payload to the renderer / statistics display. A TypeError thrown inside
`updateStats` is caught by the same outer catch (logged, partial update kept).
For `actions_list` the catalog is passed to `ActionSelector.updateActions`;
the corner where the `actions` field is missing or not an array (in which case
the source stores the garbage value and then throws inside the dropdown
rebuild, caught by the outer catch) is modelled as the caught-error log with
the selector state left as is. The optional `customActionsManager` module is
outside the modelled core. -/
def handleWebSocketMessage (st : AppState) (raw : Option Json) :
    AppState × List Effect :=
  match raw with
  | none => (st, [Effect.log parseErrLog])
  | some msg =>
      if typeFieldString msg = "processed_frame" then
        if st.isEvaluating then
          (st, Effect.log recvLog :: Effect.forwardFrame msg :: handleProcessedFrame msg)
        else (st, [Effect.log recvLog])
      else if typeFieldString msg = "result" then
        if st.isEvaluating then
          ({ st with
              stats := (updateStats st.stats (msg.getField "count") (msg.getField "stage")
                (msg.getField "angle")).1 },
            Effect.log recvLog :: Effect.log resultLog ::
              Effect.forwardStats (msg.getField "count") (msg.getField "stage")
                (msg.getField "angle") ::
              (match (updateStats st.stats (msg.getField "count") (msg.getField "stage")
                  (msg.getField "angle")).2 with
               | some _ => [Effect.log parseErrLog]
               | none => []))
        else (st, [Effect.log recvLog])
      else if typeFieldString msg = "warning" then (st, [Effect.log recvLog, Effect.log warnLog])
      else if typeFieldString msg = "error" then (st, [Effect.log recvLog, Effect.log backendErrLog])
      else if typeFieldString msg = "actions_list" then
        match msg.getField "actions" with
        | some (Json.acts l) =>
            ((appUpdateActions st l).1,
              Effect.log recvLog :: Effect.log actionsListLog :: (appUpdateActions st l).2)
        | _ => (st, [Effect.log recvLog, Effect.log actionsListLog, Effect.log parseErrLog])
      else if typeFieldString msg = "action_selected" then
        (st, [Effect.log recvLog, Effect.log actionSelectedLog])
      else if typeFieldString msg = "action_stopped" then
        (st, [Effect.log recvLog, Effect.log actionStoppedLog])
      else if typeFieldString msg = "evaluation_started" then
        (st, [Effect.log recvLog, Effect.log evalStartedLog])
      else (st, [Effect.log recvLog, Effect.log unknownTypeLog])

/-- Deliver a list of raw inbound frames in order, each handled to completion
before the next (single-threaded event loop). -/
def runInbound (st : AppState) : List (Option Json) → AppState × List Effect
  | [] => (st, [])
  | m :: rest =>
      let r1 := handleWebSocketMessage st m
      let r2 := runInbound r1.1 rest
      (r2.1, r1.2 ++ r2.2)

/-- User-driven session operations: choosing an entry of the exercise dropdown
(including the empty "no action" option), the start button and the stop
button. -/
inductive UserCall
  | select (id : String)
  | start
  | stop

/-- Dispatch of one user call to the corresponding operation. -/
def applyCall (st : AppState) : UserCall → AppState × List Effect
  | .select id => appSelectExercise st id
  | .start => appStartEvaluation st
  | .stop => appStopEvaluation st

/-- The session state after a sequence of user calls. -/
def runCalls (st : AppState) : List UserCall → AppState
  | [] => st
  | c :: rest => runCalls (applyCall st c).1 rest

/-- Outcome of waiting (at most 5000 ms) for an `actions_list` reply to the
`get_actions` request sent over the connection. -/
inductive CatalogReply
  | replied (l : List Action)
  | timeout

/-- Outcome of the REST `GET /actions` fallback. -/
inductive RestReply
  | ok (l : List Action)
  | httpError
  | networkError

/-- The bound on the catalog fetch over the connection (milliseconds). -/
def catalogTimeoutMs : Nat := 5000

def fetchTimeoutErr : String := "获取动作列表超时"

def restHttpFailLog : String := "获取动作列表失败"

def restNetworkFailLog : String := "获取动作列表出错"

def fetchFailLog : String := "获取动作列表失败"

def fetchFailAlert : String := "无法获取动作列表，请检查后端服务是否正常运行"

/-- `ActionSelector.fetchActions` (src/unnamed/part_001, lines 245-274):
send `get_actions` over the connection, install a temporary `actions_list`
listener, and start a `catalogTimeoutMs` timer. A reply within the bound
stores the catalog and resolves with it; otherwise the timer rejects with the
timeout error. -/
def selectorFetchActions (st : AppState) (r : CatalogReply) :
    AppState × Except String (List Action) × List Effect :=
  let reqEffs := match wsSend st.ws (encodeCommand OutboundCommand.getActions) with
    | .ok (_b, effs) => effs
    | .thrown => []
  match r with
  | .replied l => ({ st with actions := l }, Except.ok l, reqEffs)
  | .timeout => (st, Except.error fetchTimeoutErr, reqEffs)

/-- `ActionSelector.fetchActionsRest` (src/unnamed/part_001, lines 280-296):
fetch `GET /actions`; a non-OK response or a thrown fetch/parse error is
caught, logged and converted to an empty list. The returned value is a plain
list: this function never rejects. -/
def selectorFetchActionsRest (st : AppState) (r : RestReply) :
    AppState × List Action × List Effect :=
  match r with
  | .ok l => ({ st with actions := l }, l, [Effect.restGet])
  | .httpError => (st, [], [Effect.restGet, Effect.log restHttpFailLog])
  | .networkError => (st, [], [Effect.restGet, Effect.log restNetworkFailLog])

/-- `RehabEvaluationApp.fetchActions` (src/frontend/scripts/main.js, lines
246-259): try the catalog fetch over the connection; on failure log and fall
back to the REST fetch. The source's inner catch, which would alert
`fetchFailAlert`, can only run when the REST fallback rejects; since
`selectorFetchActionsRest` is total that branch is unreachable and the
model contains no path producing the alert. -/
def appFetchActions (st : AppState) (r : CatalogReply) (rr : RestReply) :
    AppState × List Effect :=
  match selectorFetchActions st r with
  | (st1, Except.ok _l, effs) => (st1, effs)
  | (st1, Except.error _e, effs) =>
      let r2 := selectorFetchActionsRest st1 rr
      (r2.1, effs ++ [Effect.log fetchFailLog] ++ r2.2.2)

/-- Effect observations used in the theorem statements. -/
def isForward : Effect → Bool
  | .forwardFrame _ => true
  | .forwardStats _ _ _ => true
  | _ => false

def isAlert : Effect → Bool
  | .alert _ => true
  | _ => false

def isLog : Effect → Bool
  | .log _ => true
  | _ => false

def isSendCall : Effect → Bool
  | .sendCall _ _ => true
  | _ => false

def isAcceptedSend : Effect → Bool
  | .sendCall _ true => true
  | _ => false

def isRestGet : Effect → Bool
  | .restGet => true
  | _ => false

/-- The renderer/statistics hand-offs contained in an effect trace. -/
def forwardEffects (effs : List Effect) : List Effect :=
  effs.filter isForward

/-- The hand-off that one raw inbound frame is expected to produce while the
session is evaluating: the frame payload for `processed_frame`, the three
statistics fields for `result`, nothing otherwise. -/
def expectedForward (raw : Option Json) : Option Effect :=
  match raw with
  | none => none
  | some msg =>
      if typeFieldString msg = "processed_frame" then some (Effect.forwardFrame msg)
      else if typeFieldString msg = "result" then
        some (Effect.forwardStats (msg.getField "count") (msg.getField "stage")
          (msg.getField "angle"))
      else none

/-- A concrete catalog entry used by witnesses and counterexamples. -/
def actSquat : Action :=
  { id := "a", name := "Squat", upAngle := 170, downAngle := 90, kpts := [11, 13, 15] }

/-- The same exercise id with edited fields (a catalog refresh of `actSquat`). -/
def actSquat2 : Action :=
  { id := "a", name := "Deep Squat", upAngle := 160, downAngle := 80, kpts := [11, 13, 15] }

/-- An open, connected client state. -/
def wsOpenConn : WSClientState := { connected := true, socket := some ReadyState.Open }

/-- App state right after startup with the catalog loaded and nothing selected. -/
def exInitial : AppState :=
  { ws := wsOpenConn
    actions := [actSquat]
    selectedAction := none
    isEvaluating := false
    stats := statsReset
    currentActionText := noneSelectedText }

/-- App state with `actSquat` selected, not evaluating. -/
def exReadySel : AppState := { exInitial with selectedAction := some actSquat, currentActionText := "Squat" }

/-- App state in the middle of an evaluation of `actSquat`. -/
def exEvalSel : AppState := { exReadySel with isEvaluating := true }

/-- Evaluating state whose transport has already closed. -/
def exEvalClosed : AppState :=
  { exEvalSel with ws := { connected := false, socket := some ReadyState.Closed } }

theorem wsSend_shapes (c : WSClientState) (j : Json) :
    wsSend c j = JsOutcome.thrown ∨
    wsSend c j = JsOutcome.ok (true, [Effect.sendCall j true]) ∨
    wsSend c j = JsOutcome.ok (false, [Effect.log sendFailLog, Effect.sendCall j false]) := by
  unfold wsSend
  cases hc : c.connected
  · right; right; rfl
  · cases hs : c.socket with
    | none => left; rfl
    | some rs =>
      by_cases hrs : rs = ReadyState.Open
      · right; left; simp [hrs]
      · right; right; simp [hrs]

theorem wsSend_ok_of_wellFormed (c : WSClientState) (j : Json)
    (h : wsWellFormed c = true) :
    wsSend c j = JsOutcome.ok (true, [Effect.sendCall j true]) ∨
    wsSend c j = JsOutcome.ok (false, [Effect.log sendFailLog, Effect.sendCall j false]) := by
  rcases wsSend_shapes c j with hth | hok | hok
  · exfalso
    unfold wsSend at hth
    cases hc : c.connected
    · rw [hc] at hth; simp at hth
    · cases hs : c.socket with
      | none =>
        unfold wsWellFormed at h
        rw [hc, hs] at h
        simp at h
      | some rs =>
        rw [hc, hs] at hth
        by_cases hrs : rs = ReadyState.Open <;> simp [hrs] at hth
  · exact Or.inl hok
  · exact Or.inr hok

/-- C8: for every command and every transport state reachable through the
socket lifecycle, `send` never throws; it returns true and transmits the
serialized command exactly when the socket readyState is Open, and otherwise
returns false, logs, and transmits nothing. -/
theorem C8_send_total (evs : List WSEvent) (j : Json) :
    wsSend (wsRun evs) j =
      (if (wsRun evs).socket = some ReadyState.Open then
        JsOutcome.ok (true, [Effect.sendCall j true])
      else JsOutcome.ok (false, [Effect.log sendFailLog, Effect.sendCall j false])) := by
  obtain ⟨h1, h2⟩ := wsGood_run evs
  unfold wsSend
  cases hconn : (wsRun evs).connected
  · have hns : ¬((wsRun evs).socket = some ReadyState.Open) := by
      intro h
      rw [h1 h] at hconn
      cases hconn
    simp [hns]
  · have hsome := h2 hconn
    cases hsock : (wsRun evs).socket with
    | none => exact absurd hsock hsome
    | some rs =>
      by_cases hrs : rs = ReadyState.Open
      · subst hrs; simp
      · simp [hrs]

theorem notifyBody_noThrow (d : α) (cb : JsCallback α) :
    (notifyBody d cb).2 = none := by
  unfold notifyBody
  rcases h : cb.run d with ⟨effs, err⟩
  cases err <;> rfl

/-- C10: dispatching an event to a list of registered listeners invokes every
listener in order even when earlier ones throw, the thrown error is replaced
by a log inside the dispatcher, and the dispatch itself never propagates an
exception (its own error component is always `none`). This is the shared body
of `WebSocketClient._notifyCallbacks` and `ActionSelector._notifyCallbacks`. -/
theorem C10_dispatch_isolates_errors (α : Type) (cbs : List (JsCallback α)) (d : α) :
    notifyCallbacksJs cbs d = ((cbs.map (fun cb => (notifyBody d cb).1)).flatten, none) := by
  induction cbs with
  | nil => rfl
  | cons cb rest ih =>
    show forEachJs (notifyBody d) (cb :: rest) = _
    have hb := notifyBody_noThrow d cb
    unfold forEachJs
    rcases hcb : notifyBody d cb with ⟨effs, err⟩
    rw [hcb] at hb
    simp only at hb
    subst hb
    have ihr : forEachJs (notifyBody d) rest =
        ((rest.map (fun cb => (notifyBody d cb).1)).flatten, none) := ih
    rw [ihr]
    simp [hcb]

/-- C2 (amended): a connection Closed or Errored event while the session is in
any state (including Evaluating) only logs: the evaluating flag, selection and
displayed statistics are unchanged — in particular evaluation is never resumed
automatically, but the session is also not forced back to Ready and no
ConnectionLost condition is surfaced. -/
theorem C2_close_error_handlers_only_log (st : AppState) :
    ((appOnClose st).1.isEvaluating = st.isEvaluating ∧
     (appOnClose st).1.selectedAction = st.selectedAction ∧
     (appOnClose st).1.stats = st.stats ∧
     ((appOnClose st).2.all isLog) = true) ∧
    ((appOnError st).1 = st ∧ ((appOnError st).2.all isLog) = true) :=
  ⟨⟨rfl, rfl, rfl, rfl⟩, rfl, rfl⟩

/-- C2 counterexample: with the session evaluating, the connection closing
leaves `isEvaluating` true and surfaces no alert, contradicting the claimed
forced transition back to Ready with a surfaced ConnectionLost condition. -/
theorem C2_counterexample :
    (appOnClose exEvalSel).1.isEvaluating = true ∧
    ((appOnClose exEvalSel).2.countP isAlert) = 0 :=
  ⟨rfl, rfl⟩

/-- C3: a `start()` call made while no exercise is selected or while the
client is not connected is rejected synchronously: the state is returned
unchanged, the only surfaced effect is the precondition alert, and no command
is passed to `send`. -/
theorem C3_start_rejected (st : AppState)
    (h : st.selectedAction = none ∨ isConnected st.ws = false) :
    (appStartEvaluation st).1 = st ∧
    ((appStartEvaluation st).2 = [Effect.alert selectFirstAlert] ∨
      (appStartEvaluation st).2 = [Effect.alert notConnectedAlert]) ∧
    ((appStartEvaluation st).2.countP isSendCall) = 0 := by
  rcases hsel : st.selectedAction with _ | sel
  · unfold appStartEvaluation
    rw [hsel]
    exact ⟨rfl, Or.inl rfl, rfl⟩
  · rcases h with h | h
    · rw [hsel] at h
      cases h
    · unfold appStartEvaluation
      rw [hsel]
      simp only [h]
      exact ⟨rfl, Or.inr rfl, rfl⟩

/-- C3 witness: starting from the initial state (catalog loaded, nothing
selected, connection open) the start call leaves the state unchanged and sends
nothing. -/
theorem C3_start_rejected_witness :
    (appStartEvaluation exInitial).1 = exInitial ∧
    ((appStartEvaluation exInitial).2.countP isSendCall) = 0 :=
  ⟨(C3_start_rejected exInitial (Or.inl rfl)).1,
   (C3_start_rejected exInitial (Or.inl rfl)).2.2⟩

/-- C4: every `stop()` call (from any well-formed client state, whether or not
the transport accepts the message) clears the evaluating flag, keeps the
selection, hands the `stop_evaluation` command to `send` exactly once, and
resets the displayed statistics to count "0", stage "-", angle "0.0°". -/
theorem C4_stop_always_resets (st : AppState) (h : wsWellFormed st.ws = true) :
    (appStopEvaluation st).1.isEvaluating = false ∧
    (appStopEvaluation st).1.stats = statsReset ∧
    (appStopEvaluation st).1.selectedAction = st.selectedAction ∧
    ((appStopEvaluation st).2.countP isSendCall) = 1 ∧
    (∃ b effs, wsSend st.ws (encodeCommand OutboundCommand.stopEvaluation) =
        JsOutcome.ok (b, effs) ∧
      (appStopEvaluation st).2 = effs ++ [Effect.resetVisualizer, Effect.log stopDoneLog]) := by
  rcases wsSend_ok_of_wellFormed st.ws (encodeCommand OutboundCommand.stopEvaluation) h with
    hs | hs <;>
  · unfold appStopEvaluation
    rw [hs]
    refine ⟨rfl, rfl, rfl, rfl, _, _, rfl, rfl⟩

/-- C4 witness: stopping while evaluating with the connection already closed
(so the transport rejects the command) still resets the statistics and still
hands the command to `send` once. -/
theorem C4_stop_always_resets_witness :
    wsWellFormed exEvalClosed.ws = true ∧
    (appStopEvaluation exEvalClosed).1.isEvaluating = false ∧
    (appStopEvaluation exEvalClosed).1.stats = statsReset ∧
    ((appStopEvaluation exEvalClosed).2.countP isSendCall) = 1 :=
  ⟨rfl,
   (C4_stop_always_resets exEvalClosed rfl).1,
   (C4_stop_always_resets exEvalClosed rfl).2.1,
   (C4_stop_always_resets exEvalClosed rfl).2.2.2.1⟩

theorem appSelectExercise_ws (st : AppState) (id : String) :
    (appSelectExercise st id).1.ws = st.ws := by
  unfold appSelectExercise
  split
  · rfl
  · split <;> rfl

theorem appSelectExercise_evaluating (st : AppState) (id : String) :
    (appSelectExercise st id).1.isEvaluating = st.isEvaluating := by
  unfold appSelectExercise
  split
  · rfl
  · split <;> rfl

theorem appStartEvaluation_ws (st : AppState) :
    (appStartEvaluation st).1.ws = st.ws := by
  unfold appStartEvaluation
  split
  · rfl
  · split
    · split <;> rfl
    · rfl

theorem appStartEvaluation_evaluating (st : AppState) :
    (appStartEvaluation st).1.isEvaluating = true →
      st.isEvaluating = true ∨ isConnected st.ws = true := by
  unfold appStartEvaluation
  split
  · exact fun h => Or.inl h
  · split
    · next hc =>
        split
        · exact fun _ => Or.inr hc
        · exact fun h => by cases h
    · exact fun h => Or.inl h

theorem appStopEvaluation_ws (st : AppState) :
    (appStopEvaluation st).1.ws = st.ws := by
  unfold appStopEvaluation
  split <;> rfl

theorem appStopEvaluation_evaluating (st : AppState) :
    (appStopEvaluation st).1.isEvaluating = false := by
  unfold appStopEvaluation
  split <;> rfl

theorem applyCall_inv (st : AppState) (c : UserCall)
    (h : st.isEvaluating = true → isConnected st.ws = true) :
    (applyCall st c).1.ws = st.ws ∧
    ((applyCall st c).1.isEvaluating = true →
      isConnected (applyCall st c).1.ws = true) := by
  cases c with
  | select id =>
    refine ⟨appSelectExercise_ws st id, fun hev => ?_⟩
    show isConnected (appSelectExercise st id).1.ws = true
    rw [appSelectExercise_ws st id]
    have hev' : (appSelectExercise st id).1.isEvaluating = true := hev
    rw [appSelectExercise_evaluating st id] at hev'
    exact h hev'
  | start =>
    refine ⟨appStartEvaluation_ws st, fun hev => ?_⟩
    show isConnected (appStartEvaluation st).1.ws = true
    rw [appStartEvaluation_ws st]
    rcases appStartEvaluation_evaluating st hev with h1 | h1
    · exact h h1
    · exact h1
  | stop =>
    refine ⟨appStopEvaluation_ws st, fun hev => ?_⟩
    have hev' : (appStopEvaluation st).1.isEvaluating = true := hev
    rw [appStopEvaluation_evaluating st] at hev'
    cases hev'

theorem runCalls_inv (calls : List UserCall) :
    ∀ st : AppState, (st.isEvaluating = true → isConnected st.ws = true) →
      ((runCalls st calls).isEvaluating = true →
        isConnected (runCalls st calls).ws = true) := by
  induction calls with
  | nil => intro st h; exact h
  | cons c rest ih =>
    intro st h
    exact ih (applyCall st c).1 (applyCall_inv st c h).2

/-- C1 (amended): over every sequence of select/start/stop calls beginning in
a non-evaluating state, `isEvaluating = true` implies the connection is open
(the calls never change the connection state, and start guards on it). The
other half of the claimed invariant — that evaluating implies a selected
exercise — fails: see the counterexample. -/
theorem C1_evaluating_implies_open (st : AppState) (calls : List UserCall)
    (h : st.isEvaluating = false) :
    (runCalls st calls).isEvaluating = true →
      isConnected (runCalls st calls).ws = true :=
  runCalls_inv calls st (fun hev => absurd hev (by simp [h]))

/-- C1 witness: from the initial state, selecting the squat and starting makes
the session evaluate, and the invariant instance yields an open connection. -/
theorem C1_evaluating_implies_open_witness :
    isConnected (runCalls exInitial [UserCall.select "a", UserCall.start]).ws = true :=
  C1_evaluating_implies_open exInitial [UserCall.select "a", UserCall.start] rfl (by decide)

theorem appUpdateActions_pres (st : AppState) (l : List Action) :
    (appUpdateActions st l).1.ws = st.ws ∧
    (appUpdateActions st l).1.isEvaluating = st.isEvaluating ∧
    (appUpdateActions st l).1.stats = st.stats := by
  unfold appUpdateActions
  split
  · exact ⟨rfl, rfl, rfl⟩
  · split <;> exact ⟨rfl, rfl, rfl⟩

set_option maxHeartbeats 2000000 in
theorem handleMsg_pres (st : AppState) (raw : Option Json) :
    (handleWebSocketMessage st raw).1.ws = st.ws ∧
    (handleWebSocketMessage st raw).1.isEvaluating = st.isEvaluating := by
  rcases raw with _ | msg
  · exact ⟨rfl, rfl⟩
  · simp only [handleWebSocketMessage]
    rcases hacts : msg.getField "actions" with _ | j
    · split_ifs <;> exact ⟨rfl, rfl⟩
    · cases j <;>
        first
          | (split_ifs <;> exact ⟨rfl, rfl⟩)
          | (rename_i l
             split_ifs <;>
               first
                 | exact ⟨rfl, rfl⟩
                 | exact ⟨(appUpdateActions_pres st l).1, (appUpdateActions_pres st l).2.1⟩)

theorem handleMsg_isEvaluating (st : AppState) (raw : Option Json) :
    (handleWebSocketMessage st raw).1.isEvaluating = st.isEvaluating :=
  (handleMsg_pres st raw).2

set_option maxHeartbeats 2000000 in
theorem handleMsg_stats_of_notEvaluating (st : AppState) (raw : Option Json)
    (h : st.isEvaluating = false) :
    (handleWebSocketMessage st raw).1.stats = st.stats := by
  rcases raw with _ | msg
  · rfl
  · simp only [handleWebSocketMessage]
    rcases hacts : msg.getField "actions" with _ | j
    · split_ifs <;>
        first
          | rfl
          | (rename_i hev; rw [h] at hev; exact Bool.noConfusion hev)
    · cases j <;>
        first
          | (split_ifs <;>
              first
                | rfl
                | (rename_i hev; rw [h] at hev; exact Bool.noConfusion hev))
          | (rename_i l
             split_ifs <;>
               first
                 | rfl
                 | (rename_i hev; rw [h] at hev; exact Bool.noConfusion hev)
                 | exact (appUpdateActions_pres st l).2.2)

theorem forwardEffects_append (a b : List Effect) :
    forwardEffects (a ++ b) = forwardEffects a ++ forwardEffects b := by
  simp [forwardEffects]

theorem forwardEffects_handleProcessedFrame (msg : Json) :
    forwardEffects (handleProcessedFrame msg) = [] := by
  unfold handleProcessedFrame
  split
  · split <;> rfl
  · rfl

theorem forwardEffects_notify (ws : WSClientState) (a : Option Action) :
    forwardEffects (appNotifyActionChange ws a) = [] := by
  rcases a with _ | act
  · rfl
  · rcases ws with ⟨conn, sock⟩
    rcases sock with _ | rs
    · cases conn <;> rfl
    · cases conn <;> cases rs <;> rfl

theorem forwardEffects_updateActions (st : AppState) (l : List Action) :
    forwardEffects (appUpdateActions st l).2 = [] := by
  unfold appUpdateActions
  split
  · rfl
  · split <;>
      · show forwardEffects (Effect.log updateActionsLog :: appNotifyActionChange st.ws _) = []
        rw [show forwardEffects (Effect.log updateActionsLog :: appNotifyActionChange st.ws _) =
          forwardEffects (appNotifyActionChange st.ws _) from rfl]
        exact forwardEffects_notify st.ws _

theorem frameForwardAux (msg : Json) :
    forwardEffects (Effect.log recvLog :: Effect.forwardFrame msg ::
      handleProcessedFrame msg) = (some (Effect.forwardFrame msg)).toList := by
  have h0 : forwardEffects (handleProcessedFrame msg) = [] :=
    forwardEffects_handleProcessedFrame msg
  unfold forwardEffects at h0 ⊢
  simp [List.filter_cons, isForward, h0]

theorem actsForwardAux (st : AppState) (l : List Action) :
    forwardEffects (Effect.log recvLog :: Effect.log actionsListLog ::
      (appUpdateActions st l).2) = [] := by
  have h0 : forwardEffects (appUpdateActions st l).2 = [] :=
    forwardEffects_updateActions st l
  unfold forwardEffects at h0 ⊢
  simp [List.filter_cons, isForward, h0]

set_option maxHeartbeats 2000000 in
theorem handleMsg_forward (st : AppState) (raw : Option Json) :
    forwardEffects (handleWebSocketMessage st raw).2 =
      (if st.isEvaluating then (expectedForward raw).toList else []) := by
  rcases raw with _ | msg
  · cases h : st.isEvaluating <;> rfl
  · simp only [handleWebSocketMessage, expectedForward]
    rcases hacts : msg.getField "actions" with _ | j
    · rcases hu : (updateStats st.stats (msg.getField "count") (msg.getField "stage")
          (msg.getField "angle")).2 with _ | e <;>
        (split_ifs <;>
          first
            | rfl
            | exact frameForwardAux msg)
    · cases j <;>
        rcases hu : (updateStats st.stats (msg.getField "count") (msg.getField "stage")
            (msg.getField "angle")).2 with _ | e <;>
          (split_ifs <;>
            first
              | rfl
              | exact frameForwardAux msg
              | exact actsForwardAux st _)

/-- C1 counterexample: select the squat, start evaluating, then pick the empty
"no action" option: the selection is cleared but `isEvaluating` stays true, so
the claimed invariant (evaluating implies a selected exercise) is false. -/
theorem C1_counterexample :
    (runCalls exInitial
      [UserCall.select "a", UserCall.start, UserCall.select ""]).isEvaluating = true ∧
    (runCalls exInitial
      [UserCall.select "a", UserCall.start, UserCall.select ""]).selectedAction = none := by
  constructor <;> decide

theorem runInbound_cons (st : AppState) (m : Option Json) (rest : List (Option Json)) :
    runInbound st (m :: rest) =
      ((runInbound (handleWebSocketMessage st m).1 rest).1,
        (handleWebSocketMessage st m).2 ++ (runInbound (handleWebSocketMessage st m).1 rest).2) :=
  rfl

/-- C5: over any list of inbound frames delivered in order, the hand-offs to
the renderer/statistics display are exactly the `Result`/`ProcessedFrame`
messages of the list, once each and in arrival order, when the session is
evaluating, and nothing is handed off when it is not; moreover while not
evaluating (e.g. right after `stop()`) the displayed statistics are left
untouched by any inbound traffic. -/
theorem C5_forwarding_in_order (st : AppState) (msgs : List (Option Json)) :
    forwardEffects (runInbound st msgs).2 =
      (if st.isEvaluating then msgs.filterMap expectedForward else []) ∧
    (st.isEvaluating = false → (runInbound st msgs).1.stats = st.stats) := by
  induction msgs generalizing st with
  | nil =>
    refine ⟨?_, fun _ => rfl⟩
    cases h : st.isEvaluating <;> rfl
  | cons m rest ih =>
    rw [runInbound_cons]
    obtain ⟨ih1, ih2⟩ := ih (handleWebSocketMessage st m).1
    constructor
    · show forwardEffects ((handleWebSocketMessage st m).2 ++
        (runInbound (handleWebSocketMessage st m).1 rest).2) = _
      rw [forwardEffects_append, handleMsg_forward st m, ih1, handleMsg_isEvaluating st m]
      cases h : st.isEvaluating
      · simp
      · rcases he : expectedForward m with _ | e <;> simp [he, List.filterMap_cons]
    · intro h
      have h1 : (handleWebSocketMessage st m).1.isEvaluating = false := by
        rw [handleMsg_isEvaluating st m]
        exact h
      show (runInbound (handleWebSocketMessage st m).1 rest).1.stats = st.stats
      rw [ih2 h1]
      exact handleMsg_stats_of_notEvaluating st m h

/-- A concrete `result` frame as produced by the backend. -/
def exResultMsg : Option Json :=
  some (Json.obj [("type", Json.str "result"), ("count", Json.num 3),
    ("stage", Json.str "up"), ("angle", Json.num (1427 / 10))])

/-- C5 witness: a result frame arriving while the session is not evaluating is
dropped — no hand-off happens and the displayed statistics keep their values. -/
theorem C5_forwarding_in_order_witness :
    forwardEffects (runInbound exInitial [exResultMsg]).2 = [] ∧
    (runInbound exInitial [exResultMsg]).1.stats = exInitial.stats := by
  have h := C5_forwarding_in_order exInitial [exResultMsg]
  refine ⟨?_, h.2 rfl⟩
  have h1 := h.1
  rw [show exInitial.isEvaluating = false from rfl] at h1
  simpa using h1

/-- C6: inbound message handling is total: for every raw frame (including a
failed JSON parse, modelled by `none`) the connection state and the evaluating
flag are untouched — no error in handling terminates the connection or the
session — and every frame classified `unknown` (malformed JSON, missing or
non-string or unrecognized `type`) leaves the whole state unchanged and only
logs. -/
theorem C6_decode_never_fails_pipeline (st : AppState) (raw : Option Json) :
    ((handleWebSocketMessage st raw).1.ws = st.ws ∧
     (handleWebSocketMessage st raw).1.isEvaluating = st.isEvaluating) ∧
    (classifyMessage raw = MsgKind.unknown →
      (handleWebSocketMessage st raw).1 = st ∧
      ((handleWebSocketMessage st raw).2.all isLog) = true) := by
  refine ⟨handleMsg_pres st raw, fun hcl => ?_⟩
  rcases raw with _ | msg
  · exact ⟨rfl, rfl⟩
  · simp only [classifyMessage] at hcl
    simp only [handleWebSocketMessage]
    split_ifs at hcl ⊢
    exact ⟨rfl, rfl⟩

/-- C6 witness: an object with no `type` field is classified unknown and its
handling changes nothing, even in the middle of an evaluation. -/
theorem C6_decode_never_fails_pipeline_witness :
    classifyMessage (some (Json.obj [])) = MsgKind.unknown ∧
    (handleWebSocketMessage exEvalSel (some (Json.obj []))).1 = exEvalSel :=
  ⟨rfl, ((C6_decode_never_fails_pipeline exEvalSel (some (Json.obj []))).2 rfl).1⟩

theorem notify_some_acceptedSend (ws : WSClientState) (act : Action) :
    ((appNotifyActionChange ws (some act)).any isAcceptedSend) =
      (ws.connected && isConnected ws) := by
  rcases ws with ⟨conn, sock⟩
  rcases sock with _ | rs
  · cases conn <;> rfl
  · cases conn <;> cases rs <;> rfl

/-- C7 (amended): a catalog refresh replaces the cached exercise set in any
state and keeps the evaluating flag; when the selected id is gone the
selection and its label are cleared (but the session is not forced out of an
ongoing evaluation) and nothing is sent; when the selected id is present the
selection is refreshed in place and the refreshed selection is re-announced
(`action_select` transmitted) exactly when the socket is connected — whether
or not the session is evaluating. -/
theorem C7_catalog_refresh (st : AppState) (l : List Action) (sel : Action)
    (hsel : st.selectedAction = some sel) :
    (appUpdateActions st l).1.actions = l ∧
    (appUpdateActions st l).1.isEvaluating = st.isEvaluating ∧
    (l.find? (fun a => a.id == sel.id) = none →
      (appUpdateActions st l).1.selectedAction = none ∧
      (appUpdateActions st l).1.currentActionText = noneSelectedText ∧
      ((appUpdateActions st l).2.countP isSendCall) = 0) ∧
    (∀ upd, l.find? (fun a => a.id == sel.id) = some upd →
      (appUpdateActions st l).1.selectedAction = some upd ∧
      (appUpdateActions st l).1.currentActionText = upd.name ∧
      (((appUpdateActions st l).2.any isAcceptedSend) =
        (st.ws.connected && isConnected st.ws))) := by
  simp only [appUpdateActions, hsel]
  rcases hf : l.find? (fun a => a.id == sel.id) with _ | upd
  · simp only [hf]
    refine ⟨by trivial, by trivial, fun _ => ⟨by trivial, by trivial, by rfl⟩,
      fun upd2 hupd => Option.noConfusion hupd⟩
  · simp only [hf]
    refine ⟨by trivial, by trivial, fun hnone => Option.noConfusion hnone,
      fun upd2 hupd => ?_⟩
    injection hupd with he
    rw [he]
    refine ⟨by trivial, by trivial, ?_⟩
    show ((Effect.log updateActionsLog :: appNotifyActionChange st.ws (some upd2)).any
      isAcceptedSend) = _
    rw [List.any_cons]
    rw [notify_some_acceptedSend st.ws upd2]
    rfl

/-- C7 witness: a refresh that keeps the selected id while connected and not
evaluating refreshes the selection in place and re-announces it. -/
theorem C7_catalog_refresh_witness :
    (appUpdateActions exReadySel [actSquat2]).1.selectedAction = some actSquat2 ∧
    ((appUpdateActions exReadySel [actSquat2]).2.any isAcceptedSend) =
      (exReadySel.ws.connected && isConnected exReadySel.ws) := by
  have h := (C7_catalog_refresh exReadySel [actSquat2] actSquat rfl).2.2.2 actSquat2 (by decide)
  exact ⟨h.1, h.2.2⟩

/-- C7 counterexample: first, a refresh keeping the selected id re-announces
the selection although the session is not evaluating (the claim allows the
re-announce only in Evaluating); second, a refresh removing the selected id
during an evaluation clears the selection but leaves the evaluating flag true
(the claim requires a fall back to Idle). -/
theorem C7_counterexample :
    (((appUpdateActions exReadySel [actSquat2]).2.any isAcceptedSend) = true ∧
      exReadySel.isEvaluating = false) ∧
    ((appUpdateActions exEvalSel []).1.selectedAction = none ∧
      (appUpdateActions exEvalSel []).1.isEvaluating = true) := by
  refine ⟨⟨?_, rfl⟩, ?_, rfl⟩ <;> rfl

/-- C9 (code bug): when the catalog fetch over the connection times out and
the single REST fallback also fails, the model performs exactly one REST
attempt, leaves the catalog as it was, and surfaces no alert — the
terminal-failure alert in the source is dead code because the REST helper
swallows its errors and resolves with an empty list. -/
theorem C9_fallback_failure_not_surfaced :
    ((appFetchActions exInitial CatalogReply.timeout RestReply.networkError).2.countP isRestGet)
      = 1 ∧
    ((appFetchActions exInitial CatalogReply.timeout RestReply.networkError).2.countP isAlert)
      = 0 ∧
    (appFetchActions exInitial CatalogReply.timeout RestReply.networkError).1.actions =
      exInitial.actions :=
  ⟨rfl, rfl, rfl⟩

end Rehab
